import Mathlib

/-!
Verification of the test-output parsing core of the auto-tester repository.

The development shallowly embeds the two output parsers and the runner
wrapper of the repository:

- src/agents/go_tester.py : GoTester.run_tests and GoTester._parse_test_output
  (structured JSON-lines mode), together with a model of Python's json.loads
  restricted to the behaviour the parser can observe.
- src/agents/go_agents.py : GoRunnerAgent._parse_go_test_output (free-text
  regex mode) and the result assembly of execute_go_tests.

Strings are modelled as List Char.  Modelling notes, stated once here:

- str.splitlines is modelled on the line breaks LF, CRLF and CR (Python also
  splits on a few rarer control characters; none of the concrete inputs used
  below contain them).
- The regex character class of a word character is modelled as ASCII
  letters, digits and underscore (Python would additionally accept
  non-ASCII word characters).
- json.loads is modelled by a fuel-based recursive-descent parser over the
  JSON grammar Python accepts (including NaN and Infinity constants).
  Number tokens keep their lexeme: the program only ever compares decoded
  values against string constants, so the numeric value is never observed.
  The fuel is twice the input length plus two, which bounds the recursion
  depth, since every second recursive call consumes at least one character.
-/

/-- Does the pattern occur at the very start of the list? -/
def startsList (pat : List Char) : List Char → Bool
  | l =>
    match pat, l with
    | [], _ => true
    | _ :: _, [] => false
    | p :: ps, c :: cs => p == c && startsList ps cs

/-- Python substring containment (the `in` operator on str): does `pat`
occur contiguously anywhere in `l`? -/
def containsSub (pat : List Char) : List Char → Bool
  | [] => startsList pat []
  | c :: rest => startsList pat (c :: rest) || containsSub pat rest

/-- Consume an exact literal from the front, returning the rest. -/
def chomp : List Char → List Char → Option (List Char)
  | [], l => some l
  | _ :: _, [] => none
  | p :: ps, c :: cs => if c = p then chomp ps cs else none

/-- Consume a nonempty maximal run of characters satisfying `p` (the forced
greedy semantics of a regex character-class plus), returning the rest. -/
def spanReq (p : Char → Bool) (l : List Char) : Option (List Char) :=
  match l.takeWhile p with
  | [] => none
  | _ :: _ => some (l.dropWhile p)

/-- Model of Python str.splitlines restricted to LF, CRLF and CR breaks.
The accumulator holds the current line reversed. -/
def splitLinesAcc (cur : List Char) : List Char → List (List Char)
  | [] => [cur.reverse]
  | '\r' :: '\n' :: rest2 =>
    cur.reverse :: (if rest2.isEmpty then [] else splitLinesAcc [] rest2)
  | '\r' :: rest =>
    cur.reverse :: (if rest.isEmpty then [] else splitLinesAcc [] rest)
  | '\n' :: rest =>
    cur.reverse :: (if rest.isEmpty then [] else splitLinesAcc [] rest)
  | c :: rest => splitLinesAcc (c :: cur) rest

/-- Python str.splitlines: the empty string yields no lines, and a trailing
line break does not produce a trailing empty line. -/
def splitLines (s : List Char) : List (List Char) :=
  match s with
  | [] => []
  | c :: rest => splitLinesAcc [] (c :: rest)

/-- Python newline join, as in a join on a newline separator. -/
def joinNL : List (List Char) → List Char
  | [] => []
  | [l] => l
  | l :: l2 :: rest => l ++ '\n' :: joinNL (l2 :: rest)

/-- Index of the first element satisfying `p` (the break-on-first-hit loop
of the failure-context search in _parse_go_test_output). -/
def firstIdx (p : List Char → Bool) : List (List Char) → Option Nat
  | [] => none
  | l :: rest => if p l then some 0 else (firstIdx p rest).map (· + 1)

/-- Left brace character, written via its code point. -/
def lbrace : Char := Char.ofNat 123

/-- Right brace character, written via its code point. -/
def rbrace : Char := Char.ofNat 125

/-! ### Model of the JSON values and of json.loads (go_tester.py, structured mode) -/

/-- Python values that json.loads can produce.  A number keeps its lexeme:
the parser under verification only compares decoded values against string
constants, so the numeric value is never observed. -/
inductive PyJson where
  | null
  | bool (b : Bool)
  | num (lexeme : List Char)
  | str (s : List Char)
  | arr (elems : List PyJson)
  | obj (kvs : List (List Char × PyJson))

/-- The uncaught Python exception the structured parser can raise. -/
inductive PyErr where
  | attributeError
deriving DecidableEq, Repr

/-- JSON insignificant whitespace. -/
def jsonWsChar (c : Char) : Bool := c = ' ' || c = '\t' || c = '\n' || c = '\r'

/-- Skip insignificant whitespace. -/
def skipWs (l : List Char) : List Char := l.dropWhile jsonWsChar

/-- Value of a hexadecimal digit, via code points: digits, then the
lowercase and the uppercase letter ranges. -/
def hexDigit (c : Char) : Option Nat :=
  let n := c.toNat
  if 48 ≤ n && n ≤ 57 then some (n - 48)
  else if 97 ≤ n && n ≤ 102 then some (n - 87)
  else if 65 ≤ n && n ≤ 70 then some (n - 55)
  else none

/-- Single-character JSON string escapes. -/
def escCharMap (c : Char) : Option Char :=
  if c = '"' then some '"'
  else if c = '\\' then some '\\'
  else if c = '/' then some '/'
  else if c = 'b' then some (Char.ofNat 8)
  else if c = 'f' then some (Char.ofNat 12)
  else if c = 'n' then some '\n'
  else if c = 'r' then some '\r'
  else if c = 't' then some '\t'
  else none

/-- Body of a JSON string after the opening quote: decoded characters and
the rest of the input after the closing quote.  Raw control characters are
rejected (Python strict mode); a unicode escape decodes to its code point. -/
def parseStrBody : Nat → List Char → Option (List Char × List Char)
  | 0, _ => none
  | _ + 1, [] => none
  | f + 1, c :: rest =>
    if c = '"' then some ([], rest)
    else if c = '\\' then
      match rest with
      | [] => none
      | e :: rest2 =>
        if e = 'u' then
          match rest2 with
          | a :: b :: c2 :: d :: rest3 =>
            match hexDigit a, hexDigit b, hexDigit c2, hexDigit d with
            | some ha, some hb, some hc, some hd =>
              match parseStrBody f rest3 with
              | some (s, r) =>
                some (Char.ofNat (ha * 4096 + hb * 256 + hc * 16 + hd) :: s, r)
              | none => none
            | _, _, _, _ => none
          | _ => none
        else
          match escCharMap e with
          | none => none
          | some ec =>
            match parseStrBody f rest2 with
            | some (s, r) => some (ec :: s, r)
            | none => none
    else if c.toNat < 32 then none
    else
      match parseStrBody f rest with
      | some (s, r) => some (c :: s, r)
      | none => none

/-- Integer part of a JSON number: a zero, or a nonzero digit followed by
digits. -/
def parseIntPart : List Char → Option (List Char × List Char)
  | [] => none
  | c :: rest =>
    if c = '0' then some (['0'], rest)
    else if c.isDigit then
      some (c :: rest.takeWhile Char.isDigit, rest.dropWhile Char.isDigit)
    else none

/-- Optional fraction part of a JSON number. -/
def parseFracPart (l : List Char) : Option (List Char × List Char) :=
  match l with
  | '.' :: rest =>
    match rest.takeWhile Char.isDigit with
    | [] => none
    | d :: ds => some ('.' :: d :: ds, rest.dropWhile Char.isDigit)
  | _ => some ([], l)

/-- Optional exponent part of a JSON number. -/
def parseExpPart (l : List Char) : Option (List Char × List Char) :=
  match l with
  | [] => some ([], [])
  | c :: rest =>
    if c = 'e' || c = 'E' then
      let sgnRest :=
        match rest with
        | s :: r2 => if s = '+' || s = '-' then ([s], r2) else (([] : List Char), rest)
        | [] => (([] : List Char), rest)
      match sgnRest.2.takeWhile Char.isDigit with
      | [] => none
      | d :: ds => some (c :: (sgnRest.1 ++ d :: ds), sgnRest.2.dropWhile Char.isDigit)
    else some ([], c :: rest)

/-- A JSON number token, returned as its lexeme. -/
def parseNum (l : List Char) : Option (List Char × List Char) :=
  let sgnRest :=
    match l with
    | '-' :: r => ((['-'] : List Char), r)
    | _ => (([] : List Char), l)
  match parseIntPart sgnRest.2 with
  | none => none
  | some (ip, l2) =>
    match parseFracPart l2 with
    | none => none
    | some (fp, l3) =>
      match parseExpPart l3 with
      | none => none
      | some (ep, l4) => some (sgnRest.1 ++ ip ++ fp ++ ep, l4)

/-- JSON literal constants, including the NaN and Infinity extensions that
Python json accepts by default. -/
def parseConst (l : List Char) : Option (PyJson × List Char) :=
  match chomp "true".data l with
  | some r => some (PyJson.bool true, r)
  | none =>
  match chomp "false".data l with
  | some r => some (PyJson.bool false, r)
  | none =>
  match chomp "null".data l with
  | some r => some (PyJson.null, r)
  | none =>
  match chomp "NaN".data l with
  | some r => some (PyJson.num "NaN".data, r)
  | none =>
  match chomp "Infinity".data l with
  | some r => some (PyJson.num "Infinity".data, r)
  | none =>
  match chomp "-Infinity".data l with
  | some r => some (PyJson.num "-Infinity".data, r)
  | none => none

mutual

/-- A JSON value.  The input is expected to start at the value (whitespace
already skipped). -/
def parseVal : Nat → List Char → Option (PyJson × List Char)
  | 0, _ => none
  | f + 1, l =>
    match l with
    | [] => none
    | c :: rest =>
      if c = '"' then
        match parseStrBody (f + 1) rest with
        | some (s, r) => some (PyJson.str s, r)
        | none => none
      else if c = lbrace then
        match skipWs rest with
        | [] => none
        | c2 :: r2 =>
          if c2 = rbrace then some (PyJson.obj [], r2)
          else
            match parseMembers f (c2 :: r2) with
            | some (ms, r) => some (PyJson.obj ms, r)
            | none => none
      else if c = '[' then
        match skipWs rest with
        | [] => none
        | c2 :: r2 =>
          if c2 = ']' then some (PyJson.arr [], r2)
          else
            match parseElems f (c2 :: r2) with
            | some (vs, r) => some (PyJson.arr vs, r)
            | none => none
      else
        match parseConst l with
        | some vr => some vr
        | none =>
          match parseNum l with
          | some (lex, r) => some (PyJson.num lex, r)
          | none => none

/-- One or more members of a JSON object, up to and including the closing
brace. -/
def parseMembers : Nat → List Char → Option (List (List Char × PyJson) × List Char)
  | 0, _ => none
  | f + 1, l =>
    match l with
    | [] => none
    | c :: rest =>
      if c = '"' then
        match parseStrBody (f + 1) rest with
        | none => none
        | some (k, r1) =>
          match skipWs r1 with
          | ':' :: r3 =>
            match parseVal f (skipWs r3) with
            | none => none
            | some (v, r4) =>
              match skipWs r4 with
              | [] => none
              | c5 :: r5 =>
                if c5 = ',' then
                  match parseMembers f (skipWs r5) with
                  | some (ms, r6) => some ((k, v) :: ms, r6)
                  | none => none
                else if c5 = rbrace then some ([(k, v)], r5)
                else none
          | _ => none
      else none

/-- One or more elements of a JSON array, up to and including the closing
bracket. -/
def parseElems : Nat → List Char → Option (List PyJson × List Char)
  | 0, _ => none
  | f + 1, l =>
    match parseVal f l with
    | none => none
    | some (v, r) =>
      match skipWs r with
      | [] => none
      | c2 :: r2 =>
        if c2 = ',' then
          match parseElems f (skipWs r2) with
          | some (vs, r3) => some (v :: vs, r3)
          | none => none
        else if c2 = ']' then some ([v], r2)
        else none

end

/-- Model of Python json.loads on one line: the decoded value, or none for
a json.JSONDecodeError.  Surrounding whitespace is allowed; trailing
non-whitespace input is an error. -/
def jsonLoads (l : List Char) : Option PyJson :=
  let l1 := skipWs l
  match parseVal (2 * l1.length + 2) l1 with
  | some (v, rest) => if skipWs rest = [] then some v else none
  | none => none

/-! ### The structured parser _parse_test_output (go_tester.py lines 55-83) -/

/-- Lookup in a dict built by json.loads: with duplicate keys the later
entry wins, as in Python dict construction. -/
def dictGet (kvs : List (List Char × PyJson)) (k : List Char) : Option PyJson :=
  match kvs with
  | [] => none
  | (k1, v1) :: rest =>
    match dictGet rest k with
    | some v => some v
    | none => if k1 = k then some v1 else none

/-- Python equality between an optional decoded value and a string constant:
data.get of a missing key yields None, and any non-string value compares
unequal to a string. -/
def strOptEq (v : Option PyJson) (s : List Char) : Bool :=
  match v with
  | some (PyJson.str t) => t == s
  | _ => false

/-- The comparison t.get of the Action key against a string constant, for a
retained record. -/
def pyActionEq (a : List Char) (t : PyJson) : Bool :=
  match t with
  | PyJson.obj kvs => strOptEq (dictGet kvs "Action".data) a
  | _ => false

/-- The retention condition of the parsing loop: the Action field equals
run, pass or fail. -/
def lineKeep (kvs : List (List Char × PyJson)) : Bool :=
  strOptEq (dictGet kvs "Action".data) "run".data ||
  strOptEq (dictGet kvs "Action".data) "pass".data ||
  strOptEq (dictGet kvs "Action".data) "fail".data

/-- What one stdout line contributes to the tests list, on the inputs where
the parser does not raise. -/
def keepLineFn (l : List Char) : Option PyJson :=
  match jsonLoads l with
  | some (PyJson.obj kvs) => if lineKeep kvs then some (PyJson.obj kvs) else none
  | _ => none

/-- Does the line decode to a JSON object whose Action field equals `a`? -/
def lineActionEq (a : List Char) (l : List Char) : Bool :=
  match jsonLoads l with
  | some (PyJson.obj kvs) => strOptEq (dictGet kvs "Action".data) a
  | _ => false

/-- The JSON-lines loop of _parse_test_output.  A line that fails to decode
is skipped (the except clause catches json.JSONDecodeError); a line that
decodes to a non-object raises AttributeError at data.get, which the except
clause does not catch. -/
def collectTests : List (List Char) → Except PyErr (List PyJson)
  | [] => Except.ok []
  | l :: rest =>
    match jsonLoads l with
    | none => collectTests rest
    | some (PyJson.obj kvs) =>
      match collectTests rest with
      | Except.error e => Except.error e
      | Except.ok ts =>
        Except.ok (if lineKeep kvs then PyJson.obj kvs :: ts else ts)
    | some _ => Except.error PyErr.attributeError

/-- The result dict built by _parse_test_output, with the summary fields
inlined. -/
structure TesterResult where
  success : Bool
  output : List Char
  return_code : Int
  tests : List PyJson
  total : Nat
  passed : Nat
  failed : Nat

/-- GoTester._parse_test_output (go_tester.py lines 55-83): collect JSON
records from stdout, then count passed and failed; total is their sum. -/
def parse_test_output (stdout stderr : List Char) (return_code : Int) :
    Except PyErr TesterResult :=
  match collectTests (splitLines stdout) with
  | Except.error e => Except.error e
  | Except.ok ts =>
    let passed := ts.countP (pyActionEq "pass".data)
    let failed := ts.countP (pyActionEq "fail".data)
    Except.ok
      { success := return_code == 0
        output := stdout ++ stderr
        return_code := return_code
        tests := ts
        total := passed + failed
        passed := passed
        failed := failed }

/-- Outcome of the subprocess invocation inside run_tests: either the OS
could not spawn the test process, or the process ran to completion with
captured streams and an exit code. -/
inductive SpawnOutcome where
  | spawnFailure
  | completed (stdout stderr : List Char) (return_code : Int)

/-- Errors run_tests can surface: the spawn failure itself, or an uncaught
Python exception escaping the parser. -/
inductive RunErr where
  | spawnErr
  | pyExc (e : PyErr)
deriving DecidableEq, Repr

/-- GoTester.run_tests (go_tester.py lines 44-53) after the subprocess call:
a spawn failure propagates and no result dict is built; a completed process
has its streams handed to _parse_test_output.  The gomock bootstrap that
precedes the test invocation is outside this claim and modelled as having
succeeded. -/
def run_tests : SpawnOutcome → Except RunErr TesterResult
  | SpawnOutcome.spawnFailure => Except.error RunErr.spawnErr
  | SpawnOutcome.completed stdout stderr rc =>
    match parse_test_output stdout stderr rc with
    | Except.error e => Except.error (RunErr.pyExc e)
    | Except.ok r => Except.ok r

/-! ### The free-text parser _parse_go_test_output (go_agents.py lines 328-398) -/

/-- ASCII word character, modelling the regex word class, via code points:
the lowercase range, the uppercase range, the digit range, underscore. -/
def isWordChar (c : Char) : Bool :=
  let n := c.toNat
  (97 ≤ n && n ≤ 122) || (65 ≤ n && n ≤ 90) || (48 ≤ n && n ≤ 57) || n = 95

/-- Character admitted in a test name by the status-line regex: word
characters, dots and slashes. -/
def isNameChar (c : Char) : Bool := isWordChar c || c = '.' || c = '/'

/-- Character admitted in a duration token: digits and dots. -/
def isDurChar (c : Char) : Bool := (48 ≤ c.toNat && c.toNat ≤ 57) || c = '.'

/-- ASCII whitespace as matched by the regex space class. -/
def isPySpace (c : Char) : Bool :=
  c = ' ' || c = '\t' || c = '\n' || c = '\r' || c = '\x0b' || c = '\x0c'

/-- The three statuses of the status-line grammar. -/
inductive GoStatus where
  | pass
  | fail
  | skip
deriving DecidableEq, Repr

/-- Literal token of a status. -/
def statusTok : GoStatus → List Char
  | GoStatus.pass => "PASS".data
  | GoStatus.fail => "FAIL".data
  | GoStatus.skip => "SKIP".data

/-- The alternation of the three status tokens, tried in the order of the
regex. -/
def matchAlt (l : List Char) : Option (GoStatus × List Char) :=
  match chomp "PASS".data l with
  | some r => some (GoStatus.pass, r)
  | none =>
  match chomp "FAIL".data l with
  | some r => some (GoStatus.fail, r)
  | none =>
  match chomp "SKIP".data l with
  | some r => some (GoStatus.skip, r)
  | none => none

/-- One match of the status-line regex. -/
structure StatusMatch where
  status : GoStatus
  name : List Char
  duration : List Char
deriving DecidableEq, Repr

/-- Match the status-line regex at the start of `l`.  Both repeated
character classes are followed by a character outside the class, so the
greedy maximal munch is forced and no backtracking can occur. -/
def matchStatusAt (l : List Char) : Option StatusMatch :=
  match chomp "--- ".data l with
  | none => none
  | some r1 =>
    match matchAlt r1 with
    | none => none
    | some (st, r2) =>
      match chomp ": ".data r2 with
      | none => none
      | some r3 =>
        match r3.takeWhile isNameChar with
        | [] => none
        | n :: ns =>
          match chomp " (".data (r3.dropWhile isNameChar) with
          | none => none
          | some r5 =>
            match r5.takeWhile isDurChar with
            | [] => none
            | d :: ds =>
              match chomp "s)".data (r5.dropWhile isDurChar) with
              | none => none
              | some _ => some ⟨st, n :: ns, d :: ds⟩

/-- re.search of the status-line regex: try every start position from the
left and return the first match. -/
def searchStatus : List Char → Option StatusMatch
  | [] => matchStatusAt []
  | c :: rest =>
    match matchStatusAt (c :: rest) with
    | some m => some m
    | none => searchStatus rest

/-- Match of the all-passed trailer regex at the start of `l`: the literal
ok, then whitespace, a nonspace token, whitespace, a duration and the
literal s.  Again every repeated class is followed by a character outside
the class, so greedy matching is forced. -/
def matchOkAt (l : List Char) : Bool :=
  match chomp "ok".data l with
  | none => false
  | some r1 =>
    match spanReq isPySpace r1 with
    | none => false
    | some r2 =>
      match spanReq (fun c => !isPySpace c) r2 with
      | none => false
      | some r3 =>
        match spanReq isPySpace r3 with
        | none => false
        | some r4 =>
          match spanReq isDurChar r4 with
          | none => false
          | some r5 =>
            match chomp "s".data r5 with
            | none => false
            | some _ => true

/-- re.search of the all-passed trailer regex over the whole output. -/
def searchOk : List Char → Bool
  | [] => matchOkAt []
  | c :: rest => matchOkAt (c :: rest) || searchOk rest

/-- One entry of the failing_tests list. -/
structure FailureRec where
  name : List Char
  message : List Char
  duration : List Char
deriving DecidableEq, Repr

/-- The anchor condition of the failure-context search: a line containing
both the test name and the literal FAIL. -/
def anchorPred (name : List Char) (l : List Char) : Bool :=
  containsSub name l && containsSub "FAIL".data l

/-- The failure-context capture (go_agents.py lines 359-366): scan the
whole output for the first anchor line and take up to five lines from it;
fall back to a fixed placeholder when no anchor exists. -/
def failureMsg (output name : List Char) : List Char :=
  match firstIdx (anchorPred name) (splitLines output) with
  | some i => joinNL (((splitLines output).drop i).take 5)
  | none => "Unknown failure reason".data

/-- All status-line matches of the output, in line order (one re.search per
line). -/
def lineMatches (output : List Char) : List StatusMatch :=
  (splitLines output).filterMap searchStatus

/-- The failing_tests entries appended by the scanning loop: one record per
FAIL match, in match order. -/
def scanRecords (output : List Char) : List FailureRec :=
  (lineMatches output).filterMap (fun m =>
    match m.status with
    | GoStatus.fail => some ⟨m.name, failureMsg output m.name, m.duration⟩
    | _ => none)

/-- The record of counts and failing tests returned by
_parse_go_test_output. -/
structure GoParseResult where
  total : Nat
  passed : Nat
  failed : Nat
  skipped : Nat
  failing_tests : List FailureRec
deriving DecidableEq, Repr

/-- GoRunnerAgent._parse_go_test_output (go_agents.py lines 328-398): scan
every line for the status grammar, then apply the two corrective rules in
order.  The first fires when nothing matched and the output contains the
literal FAIL; the second fires when the total is still zero afterwards and
the all-passed trailer occurs in the output. -/
def parse_go_test_output (output : List Char) : GoParseResult :=
  let ms := lineMatches output
  let total0 := ms.length
  let passed0 := ms.countP (fun m => m.status == GoStatus.pass)
  let failed0 := ms.countP (fun m => m.status == GoStatus.fail)
  let skipped0 := ms.countP (fun m => m.status == GoStatus.skip)
  let recs := scanRecords output
  let hasFailTok := containsSub "FAIL".data output
  let total1 := if total0 == 0 && hasFailTok then 1 else total0
  let failed1 := if total0 == 0 && hasFailTok then 1 else failed0
  let recs1 :=
    if total0 == 0 && hasFailTok then
      recs ++ [⟨"CompilationOrSetupFailure".data, output, "0.0".data⟩]
    else recs
  let okFound := searchOk output
  let total2 := if okFound && total1 == 0 then 1 else total1
  let passed2 := if okFound && total1 == 0 then 1 else passed0
  ⟨total2, passed2, failed1, skipped0, recs1⟩

/-- The result dict assembled by execute_go_tests (go_agents.py lines
315-326): exit-code flag, concatenated streams, and the parsed counts of
the combined output. -/
structure GoRunResult where
  success : Bool
  output : List Char
  return_code : Int
  parsed : GoParseResult
deriving DecidableEq, Repr

/-- GoRunnerAgent.execute_go_tests result assembly: the parser receives the
concatenation of stdout and stderr and never sees the exit code. -/
def execute_go_tests_result (stdout stderr : List Char) (rc : Int) : GoRunResult :=
  { success := rc == 0
    output := stdout ++ stderr
    return_code := rc
    parsed := parse_go_test_output (stdout ++ stderr) }

/-! ### Helper lemmas about the string utilities -/

theorem startsList_iff (pat : List Char) : ∀ l, startsList pat l = true ↔ ∃ r, l = pat ++ r := by
  induction pat with
  | nil => intro l; simp [startsList]
  | cons p ps ih =>
    intro l
    cases l with
    | nil => simp [startsList]
    | cons c cs =>
      simp only [startsList, Bool.and_eq_true, beq_iff_eq, ih, List.cons_append]
      constructor
      · rintro ⟨rfl, r, rfl⟩
        exact ⟨r, rfl⟩
      · rintro ⟨r, h⟩
        injection h with h1 h2
        exact ⟨h1.symm, r, h2⟩

theorem containsSub_iff (pat : List Char) :
    ∀ l, containsSub pat l = true ↔ ∃ p q, l = p ++ pat ++ q := by
  intro l
  induction l with
  | nil =>
    simp only [containsSub, startsList_iff]
    constructor
    · rintro ⟨r, h⟩
      exact ⟨[], r, by simpa using h⟩
    · rintro ⟨p, q, h⟩
      rw [eq_comm, List.append_eq_nil] at h
      obtain ⟨h1, h2⟩ := h
      rw [List.append_eq_nil] at h1
      exact ⟨[], by simp [h1.2, h2]⟩
  | cons c cs ih =>
    simp only [containsSub, Bool.or_eq_true, startsList_iff, ih]
    constructor
    · rintro (⟨r, h⟩ | ⟨p, q, h⟩)
      · exact ⟨[], r, by simpa using h⟩
      · exact ⟨c :: p, q, by simp [h]⟩
    · rintro ⟨p, q, h⟩
      cases p with
      | nil => exact Or.inl ⟨q, by simpa using h⟩
      | cons a as =>
        injection h with h1 h2
        exact Or.inr ⟨as, q, h2⟩

theorem containsSub_append_left (pat l e : List Char) (h : containsSub pat l = true) :
    containsSub pat (l ++ e) = true := by
  obtain ⟨p, q, rfl⟩ := (containsSub_iff pat l).mp h
  exact (containsSub_iff pat _).mpr ⟨p, q ++ e, by simp⟩

theorem containsSub_append_right (pat l e : List Char) (h : containsSub pat e = true) :
    containsSub pat (l ++ e) = true := by
  obtain ⟨p, q, rfl⟩ := (containsSub_iff pat e).mp h
  exact (containsSub_iff pat _).mpr ⟨l ++ p, q, by simp⟩

theorem chomp_sound : ∀ (pat l r : List Char), chomp pat l = some r → l = pat ++ r := by
  intro pat
  induction pat with
  | nil => intro l r h; simp [chomp] at h; simp [h]
  | cons p ps ih =>
    intro l r h
    cases l with
    | nil => simp [chomp] at h
    | cons c cs =>
      rw [chomp] at h
      split at h
      · next hc => rw [List.cons_append, ← ih cs r h, hc]
      · exact absurd h (by simp)

theorem chomp_extend : ∀ (pat l r e : List Char),
    chomp pat l = some r → chomp pat (l ++ e) = some (r ++ e) := by
  intro pat
  induction pat with
  | nil => intro l r e h; simp [chomp] at h ⊢; simp [h]
  | cons p ps ih =>
    intro l r e h
    cases l with
    | nil => simp [chomp] at h
    | cons c cs =>
      rw [chomp] at h
      rw [List.cons_append, chomp]
      split at h
      · next hc => simp only [if_pos hc]; exact ih cs r e h
      · exact absurd h (by simp)

theorem chomp_arg_ne_nil (pat l r : List Char) (hpat : pat ≠ [])
    (h : chomp pat l = some r) : l ≠ [] := by
  intro hl
  subst hl
  cases pat with
  | nil => exact hpat rfl
  | cons p ps => simp [chomp] at h

theorem span_extend (p : Char → Bool) (l e : List Char) (h : l.dropWhile p ≠ []) :
    (l ++ e).takeWhile p = l.takeWhile p ∧ (l ++ e).dropWhile p = l.dropWhile p ++ e := by
  induction l with
  | nil => simp at h
  | cons c cs ih =>
    by_cases hc : p c
    · rw [List.dropWhile_cons_of_pos hc] at h
      have := ih h
      simp [List.takeWhile_cons, List.dropWhile_cons, hc, this.1, this.2]
    · simp [List.takeWhile_cons, List.dropWhile_cons, hc]

theorem spanReq_arg_ne_nil (p : Char → Bool) (l r : List Char)
    (h : spanReq p l = some r) : l ≠ [] := by
  intro hl
  subst hl
  simp [spanReq] at h

theorem spanReq_extend (p : Char → Bool) (l r e : List Char)
    (h : spanReq p l = some r) (hr : r ≠ []) : spanReq p (l ++ e) = some (r ++ e) := by
  rw [spanReq] at h
  split at h
  · exact absurd h (by simp)
  · next c cs htw =>
    injection h with h
    subst h
    have hext := span_extend p l e hr
    rw [spanReq, hext.1, htw, hext.2]


theorem matchOkAt_extend (l e : List Char) (h : matchOkAt l = true) :
    matchOkAt (l ++ e) = true := by
  rw [matchOkAt] at h
  cases h1 : chomp "ok".data l with
  | none => simp [h1] at h
  | some r1 =>
    simp only [h1] at h
    cases h2 : spanReq isPySpace r1 with
    | none => simp [h2] at h
    | some r2 =>
      simp only [h2] at h
      cases h3 : spanReq (fun c => !isPySpace c) r2 with
      | none => simp [h3] at h
      | some r3 =>
        simp only [h3] at h
        cases h4 : spanReq isPySpace r3 with
        | none => simp [h4] at h
        | some r4 =>
          simp only [h4] at h
          cases h5 : spanReq isDurChar r4 with
          | none => simp [h5] at h
          | some r5 =>
            simp only [h5] at h
            cases h6 : chomp "s".data r5 with
            | none => simp [h6] at h
            | some r6 =>
              rw [matchOkAt]
              simp only [chomp_extend _ _ _ _ h1,
                spanReq_extend _ _ _ _ h2 (spanReq_arg_ne_nil _ _ _ h3),
                spanReq_extend _ _ _ _ h3 (spanReq_arg_ne_nil _ _ _ h4),
                spanReq_extend _ _ _ _ h4 (spanReq_arg_ne_nil _ _ _ h5),
                spanReq_extend _ _ _ _ h5 (chomp_arg_ne_nil _ _ _ (by decide) h6),
                chomp_extend _ _ _ _ h6]

theorem searchOk_of_matchOkAt (l : List Char) (h : matchOkAt l = true) :
    searchOk l = true := by
  cases l with
  | nil => exact absurd h (by decide)
  | cons c cs => simp [searchOk, h]

theorem searchOk_append (l e : List Char) (h : searchOk l = true) :
    searchOk (l ++ e) = true := by
  induction l with
  | nil => exact absurd h (by decide)
  | cons c cs ih =>
    rw [searchOk, Bool.or_eq_true] at h
    rw [List.cons_append, searchOk, Bool.or_eq_true]
    cases h with
    | inl h => exact Or.inl (by rw [← List.cons_append]; exact matchOkAt_extend _ _ h)
    | inr h => exact Or.inr (ih h)

theorem searchOk_prepend (p l : List Char) (h : searchOk l = true) :
    searchOk (p ++ l) = true := by
  induction p with
  | nil => simpa using h
  | cons c cs ih => rw [List.cons_append, searchOk, ih, Bool.or_true]

theorem splitLinesAcc_decomp (cur s : List Char) :
    ∀ x, x ∈ splitLinesAcc cur s → ∃ p q, cur.reverse ++ s = p ++ x ++ q := by
  induction cur, s using splitLinesAcc.induct with
  | case1 cur =>
    intro x hx
    rw [splitLinesAcc] at hx
    simp only [List.mem_singleton] at hx
    exact ⟨[], [], by simp [hx]⟩
  | case2 cur rest2 ih =>
    intro x hx
    rw [splitLinesAcc.eq_2] at hx
    rcases List.mem_cons.mp hx with h | h
    · exact ⟨[], '\r' :: '\n' :: rest2, by simp [h]⟩
    · by_cases he : rest2.isEmpty
      · rw [if_pos he] at h; simp at h
      · rw [if_neg he] at h
        obtain ⟨p, q, hpq⟩ := ih x h
        simp only [List.reverse_nil, List.nil_append] at hpq
        exact ⟨cur.reverse ++ '\r' :: '\n' :: p, q, by simp [hpq]⟩
  | case3 cur rest h1 ih =>
    intro x hx
    rw [splitLinesAcc.eq_3 cur rest h1] at hx
    rcases List.mem_cons.mp hx with h | h
    · exact ⟨[], '\r' :: rest, by simp [h]⟩
    · by_cases he : rest.isEmpty
      · rw [if_pos he] at h; simp at h
      · rw [if_neg he] at h
        obtain ⟨p, q, hpq⟩ := ih x h
        simp only [List.reverse_nil, List.nil_append] at hpq
        exact ⟨cur.reverse ++ '\r' :: p, q, by simp [hpq]⟩
  | case4 cur rest ih =>
    intro x hx
    rw [splitLinesAcc.eq_4] at hx
    rcases List.mem_cons.mp hx with h | h
    · exact ⟨[], '\n' :: rest, by simp [h]⟩
    · by_cases he : rest.isEmpty
      · rw [if_pos he] at h; simp at h
      · rw [if_neg he] at h
        obtain ⟨p, q, hpq⟩ := ih x h
        simp only [List.reverse_nil, List.nil_append] at hpq
        exact ⟨cur.reverse ++ '\n' :: p, q, by simp [hpq]⟩
  | case5 cur c rest h1 h2 h3 ih =>
    intro x hx
    rw [splitLinesAcc.eq_5 cur c rest h1 h2 h3] at hx
    obtain ⟨p, q, hpq⟩ := ih x hx
    refine ⟨p, q, ?_⟩
    have hswap : cur.reverse ++ (c :: rest) = (c :: cur).reverse ++ rest := by simp
    rw [hswap, hpq]

theorem splitLines_decomp (s x : List Char) (hx : x ∈ splitLines s) :
    ∃ p q, s = p ++ x ++ q := by
  cases s with
  | nil => simp [splitLines] at hx
  | cons c rest =>
    rw [splitLines] at hx
    simpa using splitLinesAcc_decomp [] (c :: rest) x hx

theorem firstIdx_exists (p : List Char → Bool) :
    ∀ (ls : List (List Char)) (l : List Char), l ∈ ls → p l = true →
      ∃ i, firstIdx p ls = some i := by
  intro ls
  induction ls with
  | nil => intro l hl _; simp at hl
  | cons a rest ih =>
    intro l hl hp
    by_cases ha : p a
    · exact ⟨0, by simp [firstIdx, ha]⟩
    · rcases List.mem_cons.mp hl with rfl | hl2
      · exact absurd hp (by simp [ha])
      · obtain ⟨i, hi⟩ := ih l hl2 hp
        exact ⟨i + 1, by simp [firstIdx, ha, hi]⟩

theorem firstIdx_spec (p : List Char → Bool) :
    ∀ (ls : List (List Char)) (i : Nat), firstIdx p ls = some i →
      ∃ x rest, ls.drop i = x :: rest ∧ p x = true := by
  intro ls
  induction ls with
  | nil => intro i h; simp [firstIdx] at h
  | cons a rest ih =>
    intro i h
    by_cases ha : p a
    · rw [firstIdx, if_pos ha] at h
      injection h with h
      exact ⟨a, rest, by simp [← h], ha⟩
    · rw [firstIdx, if_neg ha] at h
      rw [Option.map_eq_some'] at h
      obtain ⟨j, hj, rfl⟩ := h
      obtain ⟨x, tail, hx, hpx⟩ := ih j hj
      exact ⟨x, tail, by simpa using hx, hpx⟩

theorem mem_joinNL_contains (sub : List Char) :
    ∀ (ls : List (List Char)) (x : List Char), x ∈ ls → containsSub sub x = true →
      containsSub sub (joinNL ls) = true := by
  intro ls
  induction ls with
  | nil => intro x hx _; simp at hx
  | cons a rest ih =>
    intro x hx hsub
    cases rest with
    | nil =>
      simp only [List.mem_singleton] at hx
      subst hx
      simpa [joinNL] using hsub
    | cons b rest2 =>
      rw [joinNL]
      rcases List.mem_cons.mp hx with rfl | hx2
      · exact containsSub_append_left _ _ _ hsub
      · have hj := ih x hx2 hsub
        have : containsSub sub ('\n' :: joinNL (b :: rest2)) = true := by
          obtain ⟨p, q, hpq⟩ := (containsSub_iff sub _).mp hj
          exact (containsSub_iff sub _).mpr ⟨'\n' :: p, q, by simp [hpq]⟩
        exact containsSub_append_right _ _ _ this

theorem matchAlt_sound (l : List Char) (st : GoStatus) (r : List Char)
    (h : matchAlt l = some (st, r)) : l = statusTok st ++ r := by
  rw [matchAlt] at h
  cases h1 : chomp "PASS".data l with
  | some r1 =>
    simp only [h1, Option.some.injEq, Prod.mk.injEq] at h
    obtain ⟨hst, hr⟩ := h
    subst hr
    rw [← hst]
    exact chomp_sound _ _ _ h1
  | none =>
    simp only [h1] at h
    cases h2 : chomp "FAIL".data l with
    | some r2 =>
      simp only [h2, Option.some.injEq, Prod.mk.injEq] at h
      obtain ⟨hst, hr⟩ := h
      subst hr
      rw [← hst]
      exact chomp_sound _ _ _ h2
    | none =>
      simp only [h2] at h
      cases h3 : chomp "SKIP".data l with
      | some r3 =>
        simp only [h3, Option.some.injEq, Prod.mk.injEq] at h
        obtain ⟨hst, hr⟩ := h
        subst hr
        rw [← hst]
        exact chomp_sound _ _ _ h3
      | none => simp [h3] at h

theorem matchStatusAt_parts (l : List Char) (m : StatusMatch) (h : matchStatusAt l = some m) :
    ∃ rest, l = "--- ".data ++ statusTok m.status ++ ": ".data ++ m.name ++
      " (".data ++ m.duration ++ "s)".data ++ rest := by
  rw [matchStatusAt] at h
  cases h1 : chomp "--- ".data l with
  | none => simp [h1] at h
  | some r1 =>
    simp only [h1] at h
    cases h2 : matchAlt r1 with
    | none => simp [h2] at h
    | some str2 =>
      obtain ⟨st, r2⟩ := str2
      simp only [h2] at h
      cases h3 : chomp ": ".data r2 with
      | none => simp [h3] at h
      | some r3 =>
        simp only [h3] at h
        cases h4 : r3.takeWhile isNameChar with
        | nil => simp [h4] at h
        | cons n ns =>
          simp only [h4] at h
          cases h5 : chomp " (".data (r3.dropWhile isNameChar) with
          | none => simp [h5] at h
          | some r5 =>
            simp only [h5] at h
            cases h6 : r5.takeWhile isDurChar with
            | nil => simp [h6] at h
            | cons d ds =>
              simp only [h6] at h
              cases h7 : chomp "s)".data (r5.dropWhile isDurChar) with
              | none => simp [h7] at h
              | some rest =>
                simp only [h7, Option.some.injEq] at h
                subst h
                refine ⟨rest, ?_⟩
                have e1 := chomp_sound _ _ _ h1
                have e2 := matchAlt_sound _ _ _ h2
                have e3 := chomp_sound _ _ _ h3
                have e4 : r3 = (n :: ns) ++ r3.dropWhile isNameChar := by
                  conv_lhs => rw [← List.takeWhile_append_dropWhile (p := isNameChar) (l := r3)]
                  rw [h4]
                have e5 := chomp_sound _ _ _ h5
                have e6 : r5 = (d :: ds) ++ r5.dropWhile isDurChar := by
                  conv_lhs => rw [← List.takeWhile_append_dropWhile (p := isDurChar) (l := r5)]
                  rw [h6]
                have e7 := chomp_sound _ _ _ h7
                rw [e1, e2, e3]
                conv_lhs => rw [e4, e5, e6, e7]
                simp [List.append_assoc]

theorem searchStatus_parts : ∀ (l : List Char) (m : StatusMatch), searchStatus l = some m →
    ∃ k r, l = k ++ r ∧ matchStatusAt r = some m := by
  intro l
  induction l with
  | nil => intro m h; exact ⟨[], [], rfl, h⟩
  | cons c cs ih =>
    intro m h
    rw [searchStatus] at h
    cases h1 : matchStatusAt (c :: cs) with
    | some m2 =>
      simp only [h1, Option.some.injEq] at h
      subst h
      exact ⟨[], c :: cs, rfl, h1⟩
    | none =>
      simp only [h1] at h
      obtain ⟨k, r, hkr, hm⟩ := ih m h
      exact ⟨c :: k, r, by simp [hkr], hm⟩

theorem searchStatus_anchor (line : List Char) (m : StatusMatch)
    (h : searchStatus line = some m) (hf : m.status = GoStatus.fail) :
    anchorPred m.name line = true := by
  obtain ⟨k, r, rfl, hm⟩ := searchStatus_parts _ m h
  obtain ⟨rest, hr⟩ := matchStatusAt_parts r m hm
  rw [anchorPred, Bool.and_eq_true]
  constructor
  · refine (containsSub_iff _ _).mpr
      ⟨k ++ "--- ".data ++ statusTok m.status ++ ": ".data,
       " (".data ++ m.duration ++ "s)".data ++ rest, ?_⟩
    rw [hr]
    simp [List.append_assoc]
  · refine (containsSub_iff _ _).mpr
      ⟨k ++ "--- ".data,
       ": ".data ++ m.name ++ " (".data ++ m.duration ++ "s)".data ++ rest, ?_⟩
    rw [hr, hf]
    simp [statusTok, List.append_assoc]

theorem lineMatches_mem (output : List Char) (m : StatusMatch) (hm : m ∈ lineMatches output) :
    ∃ line, line ∈ splitLines output ∧ searchStatus line = some m := by
  rw [lineMatches, List.mem_filterMap] at hm
  exact hm

theorem scanRecords_mem (output : List Char) (r : FailureRec) (hr : r ∈ scanRecords output) :
    ∃ m, m ∈ lineMatches output ∧ m.status = GoStatus.fail ∧
      r = ⟨m.name, failureMsg output m.name, m.duration⟩ := by
  rw [scanRecords, List.mem_filterMap] at hr
  obtain ⟨m, hm, hsome⟩ := hr
  cases hst : m.status with
  | fail =>
    simp only [hst, Option.some.injEq] at hsome
    exact ⟨m, hm, hst, hsome.symm⟩
  | pass => simp [hst] at hsome
  | skip => simp [hst] at hsome

theorem statusCounts (ms : List StatusMatch) :
    ms.length = ms.countP (fun m => m.status == GoStatus.pass)
      + ms.countP (fun m => m.status == GoStatus.fail)
      + ms.countP (fun m => m.status == GoStatus.skip) := by
  induction ms with
  | nil => rfl
  | cons m t ih =>
    simp only [List.countP_cons, List.length_cons]
    cases hm : m.status <;> simp [hm, ih] <;> omega

theorem collectTests_ok_eq : ∀ (ls : List (List Char)) (ts : List PyJson),
    collectTests ls = Except.ok ts → ts = ls.filterMap keepLineFn := by
  intro ls
  induction ls with
  | nil =>
    intro ts h
    rw [collectTests] at h
    simp only [Except.ok.injEq] at h
    simp [← h]
  | cons l rest ih =>
    intro ts h
    rw [collectTests] at h
    cases hj : jsonLoads l with
    | none =>
      simp only [hj] at h
      rw [List.filterMap_cons]
      have hnone : keepLineFn l = none := by rw [keepLineFn, hj]
      rw [hnone]
      exact ih ts h
    | some v =>
      simp only [hj] at h
      cases v with
      | obj kvs =>
        cases hc : collectTests rest with
        | error e2 => simp [hc] at h
        | ok ts2 =>
          simp only [hc, Except.ok.injEq] at h
          have hsome : keepLineFn l = if lineKeep kvs then some (PyJson.obj kvs) else none := by
            rw [keepLineFn, hj]
          by_cases hk : lineKeep kvs = true
          · rw [if_pos hk] at h
            rw [List.filterMap_cons, hsome, if_pos hk, ← h, ih ts2 hc]
          · have hkf : lineKeep kvs = false := by
              cases hcase : lineKeep kvs
              · rfl
              · exact absurd hcase hk
            rw [hkf] at h
            simp only [Bool.false_eq_true, if_false] at h
            rw [List.filterMap_cons, hsome, hkf]
            simp only [Bool.false_eq_true, if_false]
            rw [← h, ih ts2 hc]
      | null => simp at h
      | bool b => simp at h
      | num lx => simp at h
      | str s2 => simp at h
      | arr es => simp at h

theorem countP_filterMap_eq (f : List Char → Option PyJson) (p : PyJson → Bool) :
    ∀ ls : List (List Char), (ls.filterMap f).countP p
      = ls.countP (fun l => ((f l).map p).getD false) := by
  intro ls
  induction ls with
  | nil => rfl
  | cons a rest ih =>
    cases hf : f a with
    | none => simp [List.filterMap_cons, hf, List.countP_cons, ih]
    | some t => simp [List.filterMap_cons, hf, List.countP_cons, ih]

theorem keepLine_action_pointwise (a : List Char)
    (ha : ∀ kvs, strOptEq (dictGet kvs "Action".data) a = true → lineKeep kvs = true)
    (l : List Char) :
    ((keepLineFn l).map (pyActionEq a)).getD false = lineActionEq a l := by
  cases hj : jsonLoads l with
  | none => simp [keepLineFn, lineActionEq, hj]
  | some v =>
    cases v with
    | obj kvs =>
      by_cases hk : lineKeep kvs = true
      · simp [keepLineFn, lineActionEq, hj, hk, pyActionEq]
      · have hkf : lineKeep kvs = false := by
          cases hcase : lineKeep kvs
          · rfl
          · exact absurd hcase hk
        have hs : strOptEq (dictGet kvs "Action".data) a = false := by
          cases hscase : strOptEq (dictGet kvs "Action".data) a
          · rfl
          · exact absurd (ha kvs hscase) hk
        simp [keepLineFn, lineActionEq, hj, hkf, hs]
    | null => simp [keepLineFn, lineActionEq, hj]
    | bool b => simp [keepLineFn, lineActionEq, hj]
    | num lx => simp [keepLineFn, lineActionEq, hj]
    | str s2 => simp [keepLineFn, lineActionEq, hj]
    | arr es => simp [keepLineFn, lineActionEq, hj]

theorem parse_test_output_ok_core (s e : List Char) (rc : Int) (r : TesterResult)
    (h : parse_test_output s e rc = Except.ok r) :
    r.tests = (splitLines s).filterMap keepLineFn ∧
    r.passed = (splitLines s).countP (lineActionEq "pass".data) ∧
    r.failed = (splitLines s).countP (lineActionEq "fail".data) ∧
    r.total = r.passed + r.failed := by
  rw [parse_test_output] at h
  cases hc : collectTests (splitLines s) with
  | error e2 => simp [hc] at h
  | ok ts =>
    simp only [hc, Except.ok.injEq] at h
    subst h
    have hts := collectTests_ok_eq _ _ hc
    refine ⟨hts, ?_, ?_, rfl⟩
    · show ts.countP (pyActionEq "pass".data) = _
      rw [hts, countP_filterMap_eq]
      congr 1
      funext l
      exact keepLine_action_pointwise "pass".data
        (fun kvs hs => by simp [lineKeep, hs]) l
    · show ts.countP (pyActionEq "fail".data) = _
      rw [hts, countP_filterMap_eq]
      congr 1
      funext l
      exact keepLine_action_pointwise "fail".data
        (fun kvs hs => by simp [lineKeep, hs]) l

theorem freeText_fallback_fail (output : List Char)
    (h0 : lineMatches output = []) (h1 : containsSub "FAIL".data output = true) :
    parse_go_test_output output =
      ⟨1, 0, 1, 0, [⟨"CompilationOrSetupFailure".data, output, "0.0".data⟩]⟩ := by
  simp [parse_go_test_output, scanRecords, h0, h1]

theorem scanRecords_anchor (output : List Char) (m : StatusMatch)
    (hm : m ∈ lineMatches output) (hf : m.status = GoStatus.fail) :
    ∃ i, firstIdx (anchorPred m.name) (splitLines output) = some i := by
  obtain ⟨line, hline, hsearch⟩ := lineMatches_mem output m hm
  exact firstIdx_exists _ _ _ hline (searchStatus_anchor line m hsearch hf)

theorem failureMsg_of_anchor (output name : List Char) (i : Nat)
    (hi : firstIdx (anchorPred name) (splitLines output) = some i) :
    failureMsg output name = joinNL (((splitLines output).drop i).take 5) := by
  rw [failureMsg, hi]

theorem failureMsg_contains_FAIL (output name : List Char) (i : Nat)
    (hi : firstIdx (anchorPred name) (splitLines output) = some i) :
    containsSub "FAIL".data (failureMsg output name) = true := by
  obtain ⟨x, rest, hdrop, hpx⟩ := firstIdx_spec _ _ _ hi
  rw [failureMsg_of_anchor output name i hi]
  have hxmem : x ∈ ((splitLines output).drop i).take 5 := by
    rw [hdrop, List.take_succ_cons]
    exact List.mem_cons_self _ _
  have hfail : containsSub "FAIL".data x = true := by
    rw [anchorPred, Bool.and_eq_true] at hpx
    exact hpx.2
  exact mem_joinNL_contains _ _ _ hxmem hfail

theorem scanRecords_message (output : List Char) (r : FailureRec) (hr : r ∈ scanRecords output) :
    r.message = failureMsg output r.name := by
  obtain ⟨m, _, _, rfl⟩ := scanRecords_mem output r hr
  rfl

theorem parse_go_failing_eq (output : List Char) :
    (parse_go_test_output output).failing_tests =
      (if (lineMatches output).length == 0 && containsSub "FAIL".data output then
        scanRecords output ++ [⟨"CompilationOrSetupFailure".data, output, "0.0".data⟩]
      else scanRecords output) := rfl

theorem mem_failing_of_not_sentinel (output : List Char) (r : FailureRec)
    (hr : r ∈ (parse_go_test_output output).failing_tests)
    (hname : r.name ≠ "CompilationOrSetupFailure".data) :
    r ∈ scanRecords output := by
  rw [parse_go_failing_eq] at hr
  split at hr
  · rcases List.mem_append.mp hr with h | h
    · exact h
    · simp only [List.mem_singleton] at h
      exact absurd (by rw [h]) hname
  · exact hr

/-! ### Claim theorems -/

/-- C1: the claim states that both parsing entry points handle every input,
including lines that decode to JSON values that are not objects, without
raising.  The code refutes this: the structured parser catches only
json.JSONDecodeError, so a stdout line containing the bare number 5 decodes
successfully and then raises AttributeError at data.get.  This theorem
evaluates the embedded parser at that failing input. -/
theorem c1_structured_crash_on_bare_number :
    parse_test_output "5".data [] 0 = Except.error PyErr.attributeError := rfl

/-- C2: for every input, the free-text result satisfies
total = passed + failed + skipped, and every structured result satisfies
total = passed + failed, including after the corrective fallback rules. -/
theorem c2_total_invariant :
    (∀ output : List Char,
      (parse_go_test_output output).total =
        (parse_go_test_output output).passed + (parse_go_test_output output).failed +
          (parse_go_test_output output).skipped) ∧
    (∀ (s e : List Char) (rc : Int) (r : TesterResult),
      parse_test_output s e rc = Except.ok r → r.total = r.passed + r.failed) := by
  constructor
  · intro output
    by_cases hms : lineMatches output = []
    · cases hF : containsSub "FAIL".data output <;> cases hok : searchOk output <;>
        simp [parse_go_test_output, scanRecords, hms, hF, hok]
    · have hlen : (lineMatches output).length ≠ 0 := by
        simpa [List.length_eq_zero] using hms
      have hbeq : ((lineMatches output).length == 0) = false := by
        simpa using hlen
      simp [parse_go_test_output, hbeq]
      exact statusCounts (lineMatches output)
  · intro s e rc r h
    exact (parse_test_output_ok_core s e rc r h).2.2.2

/-- Witness for C2 at concrete inputs of both modes. -/
theorem c2_total_invariant_witness :
    ((parse_go_test_output "FAIL".data).total =
      (parse_go_test_output "FAIL".data).passed + (parse_go_test_output "FAIL".data).failed +
        (parse_go_test_output "FAIL".data).skipped) ∧
    ((⟨true, "\x7b\"Action\":\"pass\"\x7d".data, 0,
        [PyJson.obj [("Action".data, PyJson.str "pass".data)]], 1, 1, 0⟩ : TesterResult).total =
      (⟨true, "\x7b\"Action\":\"pass\"\x7d".data, 0,
        [PyJson.obj [("Action".data, PyJson.str "pass".data)]], 1, 1, 0⟩ : TesterResult).passed +
      (⟨true, "\x7b\"Action\":\"pass\"\x7d".data, 0,
        [PyJson.obj [("Action".data, PyJson.str "pass".data)]], 1, 1, 0⟩ : TesterResult).failed) :=
  ⟨c2_total_invariant.1 "FAIL".data,
   c2_total_invariant.2 "\x7b\"Action\":\"pass\"\x7d".data [] 0 _ rfl⟩

/-- C3 counterexample: the claim requires a synthesized failing record
whenever zero records parse and the exit code is non-zero.  For the
free-text mode the parser never sees the exit code and checks only for the
substring FAIL, so a failing run whose output lacks that token gets
total = 0 and no record; the structured mode never synthesizes a record at
all. -/
theorem c3_counterexample :
    lineMatches "compile error: boom".data = [] ∧
    (execute_go_tests_result "compile error: boom".data [] 1).return_code = 1 ∧
    (execute_go_tests_result "compile error: boom".data [] 1).parsed.total = 0 ∧
    (execute_go_tests_result "compile error: boom".data [] 1).parsed.failing_tests = [] ∧
    parse_test_output "garbage".data [] 1 =
      Except.ok ⟨false, "garbage".data, 1, [], 0, 0, 0⟩ :=
  ⟨by decide, by decide, by decide, by decide, rfl⟩

/-- C3 amended: in free-text mode, when zero status lines parse and the raw
output contains the substring FAIL, the result synthesizes exactly one
failing record with the reserved sentinel name and the full output as its
message, so total is at least one.  The exit code is not consulted, and the
structured mode performs no such synthesis. -/
theorem c3_amended_synthesis :
    ∀ output : List Char, lineMatches output = [] →
      containsSub "FAIL".data output = true →
      (parse_go_test_output output).failing_tests =
        [⟨"CompilationOrSetupFailure".data, output, "0.0".data⟩] ∧
      1 ≤ (parse_go_test_output output).total := by
  intro output h0 h1
  rw [freeText_fallback_fail output h0 h1]
  exact ⟨rfl, le_refl 1⟩

/-- Witness for the amended C3 at a concrete failing output. -/
theorem c3_amended_synthesis_witness :
    (parse_go_test_output "FAIL: setup broke".data).failing_tests =
      [⟨"CompilationOrSetupFailure".data, "FAIL: setup broke".data, "0.0".data⟩] ∧
    1 ≤ (parse_go_test_output "FAIL: setup broke".data).total :=
  c3_amended_synthesis "FAIL: setup broke".data (by decide) (by decide)

/-- C4 counterexample: the claim places the assertion line five lines after
the status line and still expects it inside the captured context.  The
anchor search starts at the first line containing both the test name and
FAIL, which is the status line itself, so the five-line window covers the
status line and the next four lines only and the assertion message is
absent from the record. -/
theorem c4_counterexample :
    (parse_go_test_output
      "--- FAIL: pkg/TestFoo (0.03s)\naaa\nbbb\nccc\nddd\npkg/TestFoo FAIL assert: expected 1 got 2".data).failing_tests =
      [⟨"pkg/TestFoo".data,
        "--- FAIL: pkg/TestFoo (0.03s)\naaa\nbbb\nccc\nddd".data,
        "0.03".data⟩] ∧
    containsSub "expected 1 got 2".data
      "--- FAIL: pkg/TestFoo (0.03s)\naaa\nbbb\nccc\nddd".data = false :=
  ⟨by decide, by decide⟩

/-- C4 amended: a FailureRecord produced for a matched FAIL line captures
up to five consecutive lines starting at the first line in document order
containing both the test name and FAIL, so any assertion message on a line
at most four lines after that anchor is contained in the captured context.
An assertion line five lines after the status line falls outside the
window. -/
theorem c4_amended_context :
    ∀ (output : List Char) (r : FailureRec) (sub l : List Char) (i : Nat),
      r ∈ (parse_go_test_output output).failing_tests →
      r.name ≠ "CompilationOrSetupFailure".data →
      firstIdx (anchorPred r.name) (splitLines output) = some i →
      l ∈ ((splitLines output).drop i).take 5 →
      containsSub sub l = true →
      containsSub sub r.message = true := by
  intro output r sub l i hr hname hi hl hsub
  have hscan := mem_failing_of_not_sentinel output r hr hname
  have hmsg := scanRecords_message output r hscan
  rw [hmsg, failureMsg_of_anchor output r.name i hi]
  exact mem_joinNL_contains _ _ _ hl hsub

/-- Witness for the amended C4: the assertion line sits four lines after
the anchor, inside the five-line window, and its message is found in the
captured context. -/
theorem c4_amended_context_witness :
    containsSub "expected 1 got 2".data
      (FailureRec.mk "pkg/TestFoo".data
        "--- FAIL: pkg/TestFoo (0.03s)\naaa\nbbb\nccc\npkg/TestFoo FAIL assert: expected 1 got 2".data
        "0.03".data).message = true :=
  c4_amended_context
    "--- FAIL: pkg/TestFoo (0.03s)\naaa\nbbb\nccc\npkg/TestFoo FAIL assert: expected 1 got 2".data
    ⟨"pkg/TestFoo".data,
     "--- FAIL: pkg/TestFoo (0.03s)\naaa\nbbb\nccc\npkg/TestFoo FAIL assert: expected 1 got 2".data,
     "0.03".data⟩
    "expected 1 got 2".data
    "pkg/TestFoo FAIL assert: expected 1 got 2".data
    0 (by decide) (by decide) (by decide) (by decide) (by decide)

/-- C5: in free-text mode, an input containing the token FAIL with zero
status-line matches yields exactly one synthesized failing record named
with the reserved sentinel, whose message is the entire output, and counts
total = 1, failed = 1, passed = 0, skipped = 0. -/
theorem c5_compilation_failure :
    ∀ output : List Char, lineMatches output = [] →
      containsSub "FAIL".data output = true →
      parse_go_test_output output =
        ⟨1, 0, 1, 0, [⟨"CompilationOrSetupFailure".data, output, "0.0".data⟩]⟩ :=
  fun output h0 h1 => freeText_fallback_fail output h0 h1

/-- Witness for C5 at a concrete compilation-failure output. -/
theorem c5_compilation_failure_witness :
    parse_go_test_output "FAIL\nexit status 1".data =
      ⟨1, 0, 1, 0,
       [⟨"CompilationOrSetupFailure".data, "FAIL\nexit status 1".data, "0.0".data⟩]⟩ :=
  c5_compilation_failure "FAIL\nexit status 1".data (by decide) (by decide)

/-- C6: in structured mode, passed counts the lines decoding to a JSON
object with action pass, failed counts those with action fail, total is
their sum, run records are retained in the tests list but excluded from the
total, and undecodable lines are skipped; the stated four-line input yields
passed = 1, failed = 1, total = 2 with three retained records. -/
theorem c6_structured_counts :
    (∀ (s e : List Char) (rc : Int) (r : TesterResult),
      parse_test_output s e rc = Except.ok r →
      r.passed = (splitLines s).countP (lineActionEq "pass".data) ∧
      r.failed = (splitLines s).countP (lineActionEq "fail".data) ∧
      r.total = r.passed + r.failed ∧
      r.tests = (splitLines s).filterMap keepLineFn) ∧
    parse_test_output
        "\x7b\"Action\":\"pass\"\x7d\n\x7b\"Action\":\"fail\"\x7d\n\x7b\"Action\":\"run\"\x7d\nnot json".data
        [] 0 =
      Except.ok
        ⟨true,
         "\x7b\"Action\":\"pass\"\x7d\n\x7b\"Action\":\"fail\"\x7d\n\x7b\"Action\":\"run\"\x7d\nnot json".data,
         0,
         [PyJson.obj [("Action".data, PyJson.str "pass".data)],
          PyJson.obj [("Action".data, PyJson.str "fail".data)],
          PyJson.obj [("Action".data, PyJson.str "run".data)]],
         2, 1, 1⟩ := by
  constructor
  · intro s e rc r h
    obtain ⟨ht, hp, hf, htot⟩ := parse_test_output_ok_core s e rc r h
    exact ⟨hp, hf, htot, ht⟩
  · rfl

/-- Witness for the general part of C6 at a one-line input. -/
theorem c6_structured_counts_witness :
    ((⟨false, "\x7b\"Action\":\"fail\"\x7d".data ++ "err".data, 2,
        [PyJson.obj [("Action".data, PyJson.str "fail".data)]], 1, 0, 1⟩ : TesterResult).passed =
      (splitLines "\x7b\"Action\":\"fail\"\x7d".data).countP (lineActionEq "pass".data)) ∧
    ((⟨false, "\x7b\"Action\":\"fail\"\x7d".data ++ "err".data, 2,
        [PyJson.obj [("Action".data, PyJson.str "fail".data)]], 1, 0, 1⟩ : TesterResult).failed =
      (splitLines "\x7b\"Action\":\"fail\"\x7d".data).countP (lineActionEq "fail".data)) ∧
    ((⟨false, "\x7b\"Action\":\"fail\"\x7d".data ++ "err".data, 2,
        [PyJson.obj [("Action".data, PyJson.str "fail".data)]], 1, 0, 1⟩ : TesterResult).total =
      (⟨false, "\x7b\"Action\":\"fail\"\x7d".data ++ "err".data, 2,
        [PyJson.obj [("Action".data, PyJson.str "fail".data)]], 1, 0, 1⟩ : TesterResult).passed +
      (⟨false, "\x7b\"Action\":\"fail\"\x7d".data ++ "err".data, 2,
        [PyJson.obj [("Action".data, PyJson.str "fail".data)]], 1, 0, 1⟩ : TesterResult).failed) ∧
    ((⟨false, "\x7b\"Action\":\"fail\"\x7d".data ++ "err".data, 2,
        [PyJson.obj [("Action".data, PyJson.str "fail".data)]], 1, 0, 1⟩ : TesterResult).tests =
      (splitLines "\x7b\"Action\":\"fail\"\x7d".data).filterMap keepLineFn) :=
  c6_structured_counts.1 "\x7b\"Action\":\"fail\"\x7d".data "err".data 2 _ rfl

/-- C7: in free-text mode, an output with zero status-line matches, without
the FAIL token, and containing a line on which the all-passed trailer
pattern matches, yields total = 1, passed = 1, failed = 0 and an empty
failing-test list. -/
theorem c7_all_pass_trailer :
    ∀ output : List Char, lineMatches output = [] →
      containsSub "FAIL".data output = false →
      (∃ l, l ∈ splitLines output ∧ searchOk l = true) →
      parse_go_test_output output = ⟨1, 1, 0, 0, []⟩ := by
  intro output h0 h1 htrailer
  obtain ⟨l, hl, hok⟩ := htrailer
  have hsearch : searchOk output = true := by
    obtain ⟨p, q, hpq⟩ := splitLines_decomp output l hl
    rw [hpq, List.append_assoc]
    exact searchOk_prepend p _ (searchOk_append l q hok)
  simp [parse_go_test_output, scanRecords, h0, h1, hsearch]

/-- Witness for C7 at the all-pass trailer input from the specification. -/
theorem c7_all_pass_trailer_witness :
    parse_go_test_output "ok   example/pkg   0.012s".data = ⟨1, 1, 0, 0, []⟩ :=
  c7_all_pass_trailer "ok   example/pkg   0.012s".data (by decide) (by decide)
    ⟨"ok   example/pkg   0.012s".data, by decide, by decide⟩

/-- C8: the claim states that a spawn failure surfaces an error with no
result while every completed process yields a populated result regardless
of exit code.  The first half holds, but a completed process whose stdout
contains a line decoding to a non-object JSON value makes the parser raise,
so no result is produced despite the process completing; the code
contradicts the claim through the same uncaught AttributeError as C1. -/
theorem c8_runner_outcomes :
    run_tests SpawnOutcome.spawnFailure = Except.error RunErr.spawnErr ∧
    run_tests (SpawnOutcome.completed "5".data [] 0) =
      Except.error (RunErr.pyExc PyErr.attributeError) := ⟨rfl, rfl⟩

/-- C9: in structured mode the tests list and the summary counts are
computed from stdout alone; two runs with the same stdout and exit code but
different stderr produce identical tests, total, passed and failed. -/
theorem c9_stderr_noninterference :
    ∀ (s e1 e2 : List Char) (rc : Int) (r1 r2 : TesterResult),
      parse_test_output s e1 rc = Except.ok r1 →
      parse_test_output s e2 rc = Except.ok r2 →
      r1.tests = r2.tests ∧ r1.total = r2.total ∧
      r1.passed = r2.passed ∧ r1.failed = r2.failed := by
  intro s e1 e2 rc r1 r2 h1 h2
  rw [parse_test_output] at h1 h2
  cases hc : collectTests (splitLines s) with
  | error e => simp [hc] at h1
  | ok ts =>
    simp only [hc, Except.ok.injEq] at h1 h2
    subst h1
    subst h2
    exact ⟨rfl, rfl, rfl, rfl⟩

/-- Witness for C9: same stdout and exit code, different stderr. -/
theorem c9_stderr_noninterference_witness :
    ((⟨true, "\x7b\"Action\":\"pass\"\x7d".data ++ [], 0,
        [PyJson.obj [("Action".data, PyJson.str "pass".data)]], 1, 1, 0⟩ : TesterResult).tests =
      (⟨true, "\x7b\"Action\":\"pass\"\x7d".data ++ "boom".data, 0,
        [PyJson.obj [("Action".data, PyJson.str "pass".data)]], 1, 1, 0⟩ : TesterResult).tests) ∧
    ((⟨true, "\x7b\"Action\":\"pass\"\x7d".data ++ [], 0,
        [PyJson.obj [("Action".data, PyJson.str "pass".data)]], 1, 1, 0⟩ : TesterResult).total =
      (⟨true, "\x7b\"Action\":\"pass\"\x7d".data ++ "boom".data, 0,
        [PyJson.obj [("Action".data, PyJson.str "pass".data)]], 1, 1, 0⟩ : TesterResult).total) ∧
    ((⟨true, "\x7b\"Action\":\"pass\"\x7d".data ++ [], 0,
        [PyJson.obj [("Action".data, PyJson.str "pass".data)]], 1, 1, 0⟩ : TesterResult).passed =
      (⟨true, "\x7b\"Action\":\"pass\"\x7d".data ++ "boom".data, 0,
        [PyJson.obj [("Action".data, PyJson.str "pass".data)]], 1, 1, 0⟩ : TesterResult).passed) ∧
    ((⟨true, "\x7b\"Action\":\"pass\"\x7d".data ++ [], 0,
        [PyJson.obj [("Action".data, PyJson.str "pass".data)]], 1, 1, 0⟩ : TesterResult).failed =
      (⟨true, "\x7b\"Action\":\"pass\"\x7d".data ++ "boom".data, 0,
        [PyJson.obj [("Action".data, PyJson.str "pass".data)]], 1, 1, 0⟩ : TesterResult).failed) :=
  c9_stderr_noninterference "\x7b\"Action\":\"pass\"\x7d".data [] "boom".data 0 _ _ rfl rfl

/-- C10: every FailureRecord produced from a matched FAIL status line has a
successful anchor search, because the matched line itself contains both the
test name and the literal FAIL; its message is the join of up to five
consecutive lines starting at the first anchor line of the whole document
and is never the fixed placeholder. -/
theorem c10_anchor_always_found :
    ∀ (output : List Char) (r : FailureRec), r ∈ scanRecords output →
      (∃ i, firstIdx (anchorPred r.name) (splitLines output) = some i ∧
        r.message = joinNL (((splitLines output).drop i).take 5)) ∧
      r.message ≠ "Unknown failure reason".data := by
  intro output r hr
  obtain ⟨m, hm, hf, rfl⟩ := scanRecords_mem output r hr
  obtain ⟨i, hi⟩ := scanRecords_anchor output m hm hf
  constructor
  · exact ⟨i, hi, failureMsg_of_anchor output m.name i hi⟩
  · intro heq
    have heq' : failureMsg output m.name = "Unknown failure reason".data := heq
    have hFAIL := failureMsg_contains_FAIL output m.name i hi
    rw [heq'] at hFAIL
    exact absurd hFAIL (by decide)

/-- Witness for C10 at a concrete failing output. -/
theorem c10_anchor_always_found_witness :
    (∃ i, firstIdx (anchorPred (FailureRec.mk "TestA".data
        "--- FAIL: TestA (0.01s)\n  assert failed".data "0.01".data).name)
        (splitLines "--- FAIL: TestA (0.01s)\n  assert failed".data) = some i ∧
      (FailureRec.mk "TestA".data
        "--- FAIL: TestA (0.01s)\n  assert failed".data "0.01".data).message =
        joinNL (((splitLines "--- FAIL: TestA (0.01s)\n  assert failed".data).drop i).take 5)) ∧
    (FailureRec.mk "TestA".data
      "--- FAIL: TestA (0.01s)\n  assert failed".data "0.01".data).message ≠
      "Unknown failure reason".data :=
  c10_anchor_always_found "--- FAIL: TestA (0.01s)\n  assert failed".data
    ⟨"TestA".data, "--- FAIL: TestA (0.01s)\n  assert failed".data, "0.01".data⟩
    (by decide)
